import Mathlib

/-!
Shallow embedding of the QOI codec from github.com/clfs/qoi (Go).

The decoder (`parseHeader`, `advance`, `Decode`, `DecodeConfig`) is translated
from qoi.go; the encoder (`writeHeader`, `writeChunks`, `writeEndMarker`,
`EncoderEncode`) from the sibling source file holding the encoder
implementation.  Bytes are `Nat` reduced `% 256` at every point where the Go
code's `uint8` typing forces a wraparound; byte streams are `List Nat`;
`io.ReadFull` failure (EOF / unexpected EOF) is modelled by running out of
list elements; the output writer is modelled by recording the payload of every
issued write call together with a failure schedule (`List Bool`) saying which
write calls return an error.
-/

namespace Qoi

/-- Model of `color.NRGBA`: one pixel, four 8-bit channels.  Fields are `Nat`s that the
operations keep reduced mod 256, mirroring Go's `uint8`. -/
structure NRGBA where
  r : Nat
  g : Nat
  b : Nat
  a : Nat
deriving DecidableEq, Repr

/-- Go zero value of `color.NRGBA`. -/
def zeroPx : NRGBA := ⟨0, 0, 0, 0⟩

/-- Source `func hash(c color.NRGBA) uint8 { return c.R*3 + c.G*5 + c.B*7 + c.A*11 }`
(uint8 arithmetic, hence the trailing `% 256`). -/
def hash (c : NRGBA) : Nat :=
  (c.r * 3 + c.g * 5 + c.b * 7 + c.a * 11) % 256

/-- Chunk tag constants from the source. -/
def opIndex : Nat := 0
def opDiff : Nat := 64
def opLuma : Nat := 128
def opRun : Nat := 192
def opRGB : Nat := 254
def opRGBA : Nat := 255
def opMask2 : Nat := 192

/-- Decoder state: `run`, the 64-entry color cache `index`, and `prev`.
The cache is a list of length 64 (Go: `[64]color.NRGBA`). -/
structure DecState where
  run : Nat
  index : List NRGBA
  prev : NRGBA
deriving DecidableEq, Repr

/-- The assignment `d.index[hash(d.prev)%64] = d.prev` executed at the end of
every successful tag-consuming `advance` call. -/
def cacheUpdate (s : DecState) : DecState :=
  { s with index := s.index.set (hash s.prev % 64) s.prev }

/-- The tag-dispatch `switch` of `decoder.advance`, given the tag byte `t`
(already a byte, i.e. `< 256`) and the remaining input. -/
def advanceTag (s : DecState) (t : Nat) (rest : List Nat) : Option (DecState × List Nat) :=
  if t = opRGB then
    match rest with
    | r1 :: g1 :: b1 :: rest2 =>
      some (cacheUpdate { s with
        prev := { r := r1 % 256, g := g1 % 256, b := b1 % 256, a := s.prev.a } }, rest2)
    | _ => none
  else if t = opRGBA then
    match rest with
    | r1 :: g1 :: b1 :: a1 :: rest2 =>
      some (cacheUpdate { s with
        prev := ⟨r1 % 256, g1 % 256, b1 % 256, a1 % 256⟩ }, rest2)
    | _ => none
  else if t &&& opMask2 = opIndex then
    some (cacheUpdate { s with prev := s.index.getD t zeroPx }, rest)
  else if t &&& opMask2 = opDiff then
    some (cacheUpdate { s with prev := {
      r := (s.prev.r + ((t >>> 4 &&& 3) + 254)) % 256,
      g := (s.prev.g + ((t >>> 2 &&& 3) + 254)) % 256,
      b := (s.prev.b + ((t &&& 3) + 254)) % 256,
      a := s.prev.a } }, rest)
  else if t &&& opMask2 = opLuma then
    match rest with
    | b1 :: rest2 =>
      let delta := ((t &&& 63) + 224) % 256
      some (cacheUpdate { s with prev := {
        r := (s.prev.r + ((delta + 248) % 256 + ((b1 % 256) >>> 4 &&& 15))) % 256,
        g := (s.prev.g + delta) % 256,
        b := (s.prev.b + ((delta + 248) % 256 + ((b1 % 256) &&& 15))) % 256,
        a := s.prev.a } }, rest2)
    | [] => none
  else
    some (cacheUpdate { s with run := t &&& 63 }, rest)

/-- Model of `func (d *decoder) advance() error`, one call.  Takes the state and the
remaining input bytes; returns `none` on a read error (stream exhausted),
otherwise the new state and the remaining input. -/
def advance (s : DecState) (input : List Nat) : Option (DecState × List Nat) :=
  if 0 < s.run then
    some ({ s with run := s.run - 1 }, input)
  else
    match input with
    | [] => none
    | t0 :: rest => advanceTag s (t0 % 256) rest

/-- Errors surfaced by the codec.  `unexpectedEOF` covers `io.EOF` /
`io.ErrUnexpectedEOF` from `io.ReadFull` (the entry points map plain EOF to
unexpected EOF); `ioError` is a write error passed through by the encoder. -/
inductive QoiError where
  | formatError (msg : String)
  | unexpectedEOF
  | ioError
deriving DecidableEq, Repr

instance {ε α : Type} [DecidableEq ε] [DecidableEq α] : DecidableEq (Except ε α) := fun x y =>
  match x, y with
  | .ok a, .ok b =>
    if h : a = b then isTrue (by rw [h]) else isFalse (fun hc => by cases hc; exact h rfl)
  | .error a, .error b =>
    if h : a = b then isTrue (by rw [h]) else isFalse (fun hc => by cases hc; exact h rfl)
  | .ok _, .error _ => isFalse (fun hc => Except.noConfusion hc)
  | .error _, .ok _ => isFalse (fun hc => Except.noConfusion hc)

/-- Outcome of `decoder.parseHeader`: the result, plus the list of pixel
buffers allocated (`image.NewNRGBA`), recorded as (width, height) pairs so
that claims about "rejected before any pixel buffer is allocated" are
statable. -/
structure HeaderResult where
  result : Except QoiError (Nat × Nat)
  allocated : List (Nat × Nat)
deriving DecidableEq, Repr

/-- Big-endian `uint32` from four bytes (`binary.BigEndian.Uint32`). -/
def be32 (b0 b1 b2 b3 : Nat) : Nat :=
  (b0 % 256) * 16777216 + (b1 % 256) * 65536 + (b2 % 256) * 256 + b3 % 256

/-- Model of `func (d *decoder) parseHeader() error`, returning the parsed
width/height and the remaining input.  Faithful to the source: after reading
width and height it allocates the pixel buffer (`image.NewNRGBA`) with no
dimension validation (the source carries a `TODO: Dimension overflow checks`
comment), and only then checks the channel and colorspace bytes. -/
def parseHeader (input : List Nat) : HeaderResult × List Nat :=
  match input with
  | m0 :: m1 :: m2 :: m3 :: rest =>
    if m0 % 256 = 113 ∧ m1 % 256 = 111 ∧ m2 % 256 = 105 ∧ m3 % 256 = 102 then
      match rest with
      | b0 :: b1 :: b2 :: b3 :: b4 :: b5 :: b6 :: b7 :: b8 :: b9 :: rest2 =>
        let w := be32 b0 b1 b2 b3
        let h := be32 b4 b5 b6 b7
        -- d.img = image.NewNRGBA(...) happens here, before any further check
        if b8 % 256 = 3 ∨ b8 % 256 = 4 then
          if b9 % 256 = 0 ∨ b9 % 256 = 1 then
            (⟨.ok (w, h), [(w, h)]⟩, rest2)
          else
            (⟨.error (.formatError "invalid color space"), [(w, h)]⟩, rest2)
        else
          (⟨.error (.formatError "invalid channel count"), [(w, h)]⟩, rest2)
      | _ => (⟨.error .unexpectedEOF, []⟩, [])
    else
      (⟨.error (.formatError "not a QOI file"), []⟩, rest)
  | _ => (⟨.error .unexpectedEOF, []⟩, [])

/-- Decoder state at the start of `Decode`:
`&decoder{prev: color.NRGBA{A: 255}}` with the cache zero-initialized. -/
def initDecState : DecState := ⟨0, List.replicate 64 zeroPx, ⟨0, 0, 0, 255⟩⟩

/-- The pixel loop of `Decode`: `n` calls to `advance`, recording `d.prev`
after each (the loop body's `d.img.SetNRGBA(x, y, d.prev)`). -/
def decodeN : Nat → DecState → List Nat → Option (List NRGBA × DecState × List Nat)
  | 0, s, inp => some ([], s, inp)
  | n + 1, s, inp =>
    match advance s inp with
    | none => none
    | some (s2, inp2) =>
      match decodeN n s2 inp2 with
      | none => none
      | some (px, s3, inp3) => some (s2.prev :: px, s3, inp3)

/-- Model of `func Decode(r io.Reader) (image.Image, error)`.  Parses the header, then
runs `advance` once per pixel of the width×height raster.  Faithful to the
source, it reads nothing after the last pixel: the 8-byte end marker is never
consumed or checked. -/
def Decode (input : List Nat) : Except QoiError (Nat × Nat × List NRGBA) :=
  let p := parseHeader input
  match p.1.result with
  | .error e => .error e
  | .ok (w, h) =>
    match decodeN (w * h) initDecState p.2 with
    | none => .error .unexpectedEOF
    | some (px, _, _) => .ok (w, h, px)

/-- Model of `func DecodeConfig(r io.Reader) (image.Config, error)`: header-only. -/
def DecodeConfig (input : List Nat) : Except QoiError (Nat × Nat) :=
  (parseHeader input).1.result

/-- An input image for the encoder: the bounds' `Dx`/`Dy` (Go `int`, may be
non-positive for unnormalized rectangles, hence `Int`) and the raster-order
pixel contents.  `color.NRGBAModel.Convert` is the identity on NRGBA pixels,
so the pixels are taken as `NRGBA` directly; for a genuine image
`pixels.length = width * height`. -/
structure Image where
  width : Int
  height : Int
  pixels : List NRGBA
deriving DecidableEq, Repr

/-- The fields of `type encoder struct` that carry encoding state across
calls: the write error `err`, the color cache `index`, `prev`, and `run`.
(`enc`, `w`, `m` are the per-call configuration/stream handles; `tmp` and
`cr` are scratch that is fully overwritten before use or unused.) -/
structure EncBuf where
  err : Option Unit
  index : List NRGBA
  prev : NRGBA
  run : Nat
deriving DecidableEq, Repr

/-- Go zero value of `encoder` (what `&encoder{}` allocates). -/
def freshEncBuf : EncBuf := ⟨none, List.replicate 64 zeroPx, zeroPx, 0⟩

/-- One encoding session: the encoder buffer, the number of write calls
issued so far, and the payloads of the issued write calls in order. -/
structure EncSession where
  buf : EncBuf
  nw : Nat
  out : List (List Nat)
deriving DecidableEq, Repr

/-- Model of `e.err = binary.Write(e.w, ..., payload)`: issue the next write call and
store its result in `err`, overwriting whatever was there.  `fail` is the
writer's behavior: the k-th write call fails iff `fail.getD k false`. -/
def emit (fail : List Bool) (s : EncSession) (payload : List Nat) : EncSession :=
  { buf := { s.buf with err := if fail.getD s.nw false then some () else none },
    nw := s.nw + 1,
    out := s.out ++ [payload] }

/-- Big-endian bytes of `uint32(n)` (`binary.BigEndian.PutUint32`); the Go
`int → uint32` conversion wraps mod 2^32. -/
def u32bytes (n : Int) : List Nat :=
  let v := (n % 4294967296).toNat
  [v / 16777216 % 256, v / 65536 % 256, v / 256 % 256, v % 256]

/-- Model of `func (e *encoder) writeHeader()`: unconditionally issues one 14-byte
write: magic, width, height, `byte(e.enc.Channels + 3)`, colorspace byte.
(`chans` and `cs` are the `Encoder` configuration fields; in this source
version `RGB = 0`, `RGBA = 1`.) -/
def writeHeader (fail : List Bool) (chans cs : Nat) (img : Image) (s : EncSession) : EncSession :=
  emit fail s
    ([113, 111, 105, 102] ++ u32bytes img.width ++ u32bytes img.height ++
      [(chans + 3) % 256, cs % 256])

/-- The pixel loop of `func (e *encoder) writeChunks()`.  `i` is the current
raster index, `total` the pixel count.  Faithful to the source: when the
pixel equals `prev` the run counter is incremented and flushed as
`opRun | byte(e.run)` at `run == 62` or at the final pixel; when the pixel
differs nothing at all happens (the chunk-selection logic is absent); the
write error is never re-checked inside the loop. -/
def writeChunksLoop (fail : List Bool) (total : Nat) :
    Nat → List NRGBA → EncSession → EncSession
  | _, [], s => s
  | i, c :: rest, s =>
    let s2 :=
      if c = s.buf.prev then
        let run2 := s.buf.run + 1
        let sInc := { s with buf := { s.buf with run := run2 } }
        if run2 = 62 ∨ i = total - 1 then
          let sW := emit fail sInc [opRun ||| run2 % 256]
          { sW with buf := { sW.buf with run := 0 } }
        else
          sInc
      else
        s
    writeChunksLoop fail total (i + 1) rest s2

/-- Model of `func (e *encoder) writeChunks()`: returns immediately when a previous
write failed, else runs the raster loop. -/
def writeChunks (fail : List Bool) (img : Image) (s : EncSession) : EncSession :=
  if s.buf.err ≠ none then s
  else writeChunksLoop fail img.pixels.length 0 img.pixels s

/-- Model of `func (e *encoder) writeEndMarker()`. -/
def writeEndMarker (fail : List Bool) (s : EncSession) : EncSession :=
  if s.buf.err ≠ none then s
  else emit fail s [0, 0, 0, 0, 0, 0, 0, 1]

/-- Result of `Encoder.Encode`: the returned error, the payloads of the
write calls issued to the writer, and the buffer handed back to
`BufferPool.Put` (`none` when no pool was used or `Put` was never reached). -/
structure EncodeResult where
  result : Except QoiError Unit
  out : List (List Nat)
  retBuf : Option EncBuf
deriving DecidableEq, Repr

/-- Model of `func (enc *Encoder) Encode(w io.Writer, m image.Image) error`.
`pool = some b` models a non-nil `BufferPool` whose `Get` returns `b`;
`pool = none` models `BufferPool == nil` (fresh encoder).  Faithful to the
source: after the dimension check, the (possibly pooled) encoder gets only
`enc`, `w`, `m`, and `prev` reassigned — `err`, `run`, and `index` keep
whatever the pooled buffer held. -/
def EncoderEncode (chans cs : Nat) (pool : Option EncBuf) (fail : List Bool)
    (img : Image) : EncodeResult :=
  if img.width ≤ 0 ∨ img.height ≤ 0 ∨
      4294967296 ≤ img.width ∨ 4294967296 ≤ img.height then
    { result := .error (.formatError
        ("invalid image size: " ++ toString img.width ++ "x" ++ toString img.height)),
      out := [], retBuf := none }
  else
    let e0 := pool.getD freshEncBuf
    let e1 := { e0 with prev := (⟨0, 0, 0, 255⟩ : NRGBA) }
    let s0 : EncSession := { buf := e1, nw := 0, out := [] }
    let s1 := writeHeader fail chans cs img s0
    let s2 := writeChunks fail img s1
    let s3 := writeEndMarker fail s2
    { result := match s3.buf.err with
      | some _ => .error .ioError
      | none => .ok (),
      out := s3.out,
      retBuf := if pool.isSome then some s3.buf else none }

/-! ## Theorems -/

/-- Claim C1.  The claim states that `Encoder.Encode` followed by `Decode` is the
identity on every valid pixel buffer.  It is false on the code: for a pixel
that differs from `prev` the encoder's chunk-selection logic is absent
(`encoder.advance` is an empty stub and `writeChunks` has no branch for
`c != e.prev`), so encoding the 1×1 image whose pixel is (255,0,0,255) writes
only the header and end marker, and decoding those bytes yields the pixel
(0,0,0,0): the first end-marker byte 0x00 is consumed as a cache-reference
chunk into the zero-initialized cache. -/
theorem roundtrip_fails_on_nonblack_pixel :
    Decode (EncoderEncode 1 0 none [] ⟨1, 1, [⟨255, 0, 0, 255⟩]⟩).out.flatten
      = .ok (1, 1, [⟨0, 0, 0, 0⟩]) ∧
    (⟨0, 0, 0, 0⟩ : NRGBA) ≠ ⟨255, 0, 0, 255⟩ := by decide

/-- Claim C2.  The claim states that headers with width = 0, height = 0, or an
oversized width×height product are rejected before any pixel buffer is
allocated.  It is false on the code (the source carries a
`TODO: Dimension overflow checks` comment): a header declaring 0×0 is
accepted outright by `Decode` and `DecodeConfig`, the pixel buffer is
allocated the moment width and height are read, and even a header that is
ultimately rejected (bad colorspace byte) has already allocated a
4294967295×4294967295 buffer. -/
theorem header_zero_dims_accepted :
    Decode [113, 111, 105, 102, 0, 0, 0, 0, 0, 0, 0, 0, 4, 0] = .ok (0, 0, []) ∧
    DecodeConfig [113, 111, 105, 102, 0, 0, 0, 0, 0, 0, 0, 0, 4, 0] = .ok (0, 0) ∧
    (parseHeader [113, 111, 105, 102, 0, 0, 0, 0, 0, 0, 0, 0, 4, 0]).1.allocated = [(0, 0)] ∧
    (parseHeader [113, 111, 105, 102, 255, 255, 255, 255, 255, 255, 255, 255, 4, 7]).1.result
      = .error (.formatError "invalid color space") ∧
    (parseHeader [113, 111, 105, 102, 255, 255, 255, 255, 255, 255, 255, 255, 4, 7]).1.allocated
      = [(4294967295, 4294967295)] := by decide

/-- Claim C3.  The claim states that after the last pixel `Decode` consumes and
verifies the 8-byte end marker, failing on mismatch or truncation.  It is
false on the code: `Decode` returns as soon as the width×height pixels are
produced and never reads another byte.  A valid 1×1 stream with no end
marker at all decodes successfully, and so does one whose marker bytes are
all wrong. -/
theorem decode_ignores_end_marker :
    Decode [113, 111, 105, 102, 0, 0, 0, 1, 0, 0, 0, 1, 4, 0, 255, 10, 20, 30, 40]
      = .ok (1, 1, [⟨10, 20, 30, 40⟩]) ∧
    Decode [113, 111, 105, 102, 0, 0, 0, 1, 0, 0, 0, 1, 4, 0, 255, 10, 20, 30, 40,
        9, 9, 9, 9, 9, 9, 9, 9]
      = .ok (1, 1, [⟨10, 20, 30, 40⟩]) := by decide

set_option maxRecDepth 4096 in
/-- Claim C4.  The claim states the flushed run chunk byte is
`0b11000000 | (run − 1)`.  The code writes `opRun | byte(e.run)` with no −1
bias: a 2×1 all-(0,0,0,255) image (run-length 2 at the final pixel) emits
0xC2 = `opRun ||| 2` where the claim requires 0xC1, and a run of length 62
emits `opRun ||| 62` = 0xFE, which is exactly the literal-RGB tag `opRGB` —
the package's own decoder cannot invert either byte as the intended run. -/
theorem run_chunk_bias_off_by_one :
    (EncoderEncode 1 0 none [] ⟨2, 1, [⟨0, 0, 0, 255⟩, ⟨0, 0, 0, 255⟩]⟩).out
      = [[113, 111, 105, 102, 0, 0, 0, 2, 0, 0, 0, 1, 4, 0], [opRun ||| 2],
         [0, 0, 0, 0, 0, 0, 0, 1]] ∧
    opRun ||| 2 ≠ opRun ||| (2 - 1) ∧
    (EncoderEncode 1 0 none [] ⟨62, 1, List.replicate 62 ⟨0, 0, 0, 255⟩⟩).out.getD 1 []
      = [opRGB] := by decide

/-- Claim C7.  For every image whose width or height is ≤ 0 or ≥ 2^32,
`Encoder.Encode` returns a `FormatError` naming the offending dimensions and
issues no write at all. -/
theorem encode_rejects_invalid_dims (chans cs : Nat) (pool : Option EncBuf)
    (fail : List Bool) (img : Image)
    (h : img.width ≤ 0 ∨ img.height ≤ 0 ∨
      4294967296 ≤ img.width ∨ 4294967296 ≤ img.height) :
    (EncoderEncode chans cs pool fail img).result
      = .error (.formatError
          ("invalid image size: " ++ toString img.width ++ "x" ++ toString img.height)) ∧
    (EncoderEncode chans cs pool fail img).out = [] := by
  unfold EncoderEncode
  rw [if_pos h]
  exact ⟨rfl, rfl⟩

/-- Witness for C7 at the concrete image 0×5. -/
theorem encode_rejects_invalid_dims_witness :
    (EncoderEncode 1 0 none [] ⟨0, 5, []⟩).result
      = .error (.formatError "invalid image size: 0x5") ∧
    (EncoderEncode 1 0 none [] ⟨0, 5, []⟩).out = [] :=
  encode_rejects_invalid_dims 1 0 none [] ⟨0, 5, []⟩ (Or.inl (by decide))

set_option maxRecDepth 4096 in
/-- Claim C8.  The claim states that once a write fails, no further writes are
issued and `Encode` returns that first error.  It is false on the code: the
`writeChunks` pixel loop never re-checks `e.err`, so on a 63×1 all-(0,0,0,255)
image whose writer fails exactly on the second write call (the run-62 flush),
the encoder goes on to issue the final-pixel run flush and the end marker —
4 write calls in total — and the later successful writes overwrite `e.err`,
so `Encode` returns no error at all. -/
theorem encode_write_error_not_short_circuited :
    List.getD [false, true] 1 false = true ∧
    (EncoderEncode 1 0 none [false, true]
        ⟨63, 1, List.replicate 63 ⟨0, 0, 0, 255⟩⟩).out.length = 4 ∧
    (EncoderEncode 1 0 none [false, true]
        ⟨63, 1, List.replicate 63 ⟨0, 0, 0, 255⟩⟩).result = .ok () := by decide

/-- Claim C10.  The claim states `Encoder.Encode` produces the same output whether
`BufferPool` is nil or supplies a buffer from an earlier `Encode` call,
because `Encode` reinitializes all transient fields.  It is false on the
code: `Encode` reassigns only `enc`, `w`, `m`, `prev`, leaving `run` (and
`index`, `err`) as the pool left them.  Encoding a 2×1 image whose trailing
pixel differs from `prev` leaves `run = 1` in the pooled buffer, and a
subsequent pooled encode of a 1×1 (0,0,0,255) image emits the run byte 0xC2
instead of the 0xC1 a fresh encoder emits. -/
theorem encode_pooled_buffer_not_reinitialized :
    (EncoderEncode 1 0
        ((EncoderEncode 1 0 (some freshEncBuf) []
            ⟨2, 1, [⟨0, 0, 0, 255⟩, ⟨255, 0, 0, 255⟩]⟩).retBuf)
        [] ⟨1, 1, [⟨0, 0, 0, 255⟩]⟩).out
      ≠ (EncoderEncode 1 0 none [] ⟨1, 1, [⟨0, 0, 0, 255⟩]⟩).out := by decide

/-- Helper: `List.getD` after `List.set` at an in-range position returns the
element just stored. -/
theorem getD_set_self (l : List NRGBA) (i : Nat) (a d : NRGBA) (h : i < l.length) :
    (l.set i a).getD i d = a := by
  rw [List.getD_eq_getElem?_getD, List.getElem?_set_eq_of_lt a h, Option.getD_some]

/-- Helper: after `cacheUpdate`, the cache slot addressed by the hash of the
current `prev` holds `prev`. -/
theorem cacheUpdate_getD (s : DecState) (hlen : s.index.length = 64) :
    (cacheUpdate s).index.getD (hash (cacheUpdate s).prev % 64) zeroPx
      = (cacheUpdate s).prev := by
  have hlt : hash s.prev % 64 < s.index.length := by
    rw [hlen]; exact Nat.mod_lt _ (by norm_num)
  exact getD_set_self _ _ _ _ hlt

/-- Claim C5, counterexample.  The claim states a run chunk leaves all 64
cache slots unchanged.  False at the initial decoder state with tag byte
0xC1: the trailing `d.index[hash(d.prev)%64] = d.prev` runs on the run-chunk
path too, and writes `prev` = (0,0,0,255) into slot 53, which held
(0,0,0,0). -/
theorem run_chunk_updates_cache_cex :
    (advance initDecState [193]).map (fun p => p.1.index) ≠ some initDecState.index ∧
    (advance initDecState [193]).map (fun p => p.1.index.getD 53 zeroPx)
      = some ⟨0, 0, 0, 255⟩ ∧
    initDecState.index.getD 53 zeroPx = ⟨0, 0, 0, 0⟩ := by decide

/-- Claim C5, amended.  For every decoder state with no active run and every
run-tag byte (top two bits 11, not the literal tags 0xFE/0xFF),
`decoder.advance` sets `run = t & 0x3F`, leaves `prev` unchanged, and updates
the cache in exactly one place: slot `hash(prev) mod 64` is overwritten with
`prev` (a no-op precisely when that slot already held `prev`); the other
slots are unchanged. -/
theorem advance_run_tag (s : DecState) (t0 : Nat) (rest : List Nat)
    (hrun : s.run = 0) (ht : t0 % 256 &&& opMask2 = opRun)
    (hRGB : t0 % 256 ≠ opRGB) (hRGBA : t0 % 256 ≠ opRGBA) :
    advance s (t0 :: rest) =
      some ({ run := t0 % 256 &&& 63,
              index := s.index.set (hash s.prev % 64) s.prev,
              prev := s.prev }, rest) := by
  have h1 : ¬ 0 < s.run := by omega
  have hi : ¬ (t0 % 256 &&& opMask2 = opIndex) := by rw [ht]; decide
  have hd : ¬ (t0 % 256 &&& opMask2 = opDiff) := by rw [ht]; decide
  have hl : ¬ (t0 % 256 &&& opMask2 = opLuma) := by rw [ht]; decide
  simp only [advance, if_neg h1, advanceTag, if_neg hRGB, if_neg hRGBA,
    if_neg hi, if_neg hd, if_neg hl]
  rfl

/-- Witness for the amended C5 at the initial decoder state with tag byte
0xC1. -/
theorem advance_run_tag_witness :
    advance initDecState (193 :: []) =
      some ({ run := 193 % 256 &&& 63,
              index := initDecState.index.set (hash initDecState.prev % 64) initDecState.prev,
              prev := initDecState.prev }, []) :=
  advance_run_tag initDecState 193 [] rfl (by decide) (by decide) (by decide)

/-- Claim C6.  For every decoder state with no active run and every luma-diff
chunk (tag byte with top two bits 10, one payload byte), `decoder.advance`
computes `dg = (t & 0x3F) − 32` and, with `drg` the payload's high nibble and
`dbg` its low nibble, updates `prev.g += dg`, `prev.r += dg − 8 + drg`,
`prev.b += dg − 8 + dbg`, each modulo 256, and leaves `prev.a` unchanged. -/
theorem advance_luma_chunk (s : DecState) (t0 b1 : Nat) (rest : List Nat)
    (hrun : s.run = 0) (ht : t0 % 256 &&& opMask2 = opLuma) :
    ∃ s2, advance s (t0 :: b1 :: rest) = some (s2, rest) ∧
      (s2.prev.g : Int) = ((s.prev.g : Int) + ((t0 % 256 &&& 63 : Nat) - 32)) % 256 ∧
      (s2.prev.r : Int) = ((s.prev.r : Int) + ((t0 % 256 &&& 63 : Nat) - 32) - 8
          + (b1 % 256 / 16 : Nat)) % 256 ∧
      (s2.prev.b : Int) = ((s.prev.b : Int) + ((t0 % 256 &&& 63 : Nat) - 32) - 8
          + (b1 % 256 % 16 : Nat)) % 256 ∧
      s2.prev.a = s.prev.a := by
  have h1 : ¬ 0 < s.run := by omega
  have hRGB : t0 % 256 ≠ opRGB := fun h => by rw [h] at ht; exact absurd ht (by decide)
  have hRGBA : t0 % 256 ≠ opRGBA := fun h => by rw [h] at ht; exact absurd ht (by decide)
  have hi : ¬ (t0 % 256 &&& opMask2 = opIndex) := by rw [ht]; decide
  have hd : ¬ (t0 % 256 &&& opMask2 = opDiff) := by rw [ht]; decide
  have hand15 : ∀ x : Nat, x &&& 15 = x % 16 := fun x => by
    simpa using Nat.and_pow_two_sub_one_eq_mod x 4
  have hhi : (b1 % 256) >>> 4 &&& 15 = b1 % 256 / 16 := by
    rw [show (b1 % 256) >>> 4 = b1 % 256 / 16 from by
      simpa using Nat.shiftRight_eq_div_pow (b1 % 256) 4, hand15]
    omega
  have hlo : (b1 % 256) &&& 15 = b1 % 256 % 16 := hand15 _
  have key : advance s (t0 :: b1 :: rest) = some (cacheUpdate { s with prev := {
      r := (s.prev.r + ((((t0 % 256 &&& 63) + 224) % 256 + 248) % 256
              + ((b1 % 256) >>> 4 &&& 15))) % 256,
      g := (s.prev.g + ((t0 % 256 &&& 63) + 224) % 256) % 256,
      b := (s.prev.b + ((((t0 % 256 &&& 63) + 224) % 256 + 248) % 256
              + ((b1 % 256) &&& 15))) % 256,
      a := s.prev.a } }, rest) := by
    simp only [advance, if_neg h1, advanceTag, if_neg hRGB, if_neg hRGBA,
      if_neg hi, if_neg hd, if_pos ht]
  refine ⟨_, key, ?_, ?_, ?_, rfl⟩
  · simp only [cacheUpdate]
    generalize (t0 % 256 &&& 63 : Nat) = k
    push_cast
    omega
  · simp only [cacheUpdate, hhi]
    generalize (t0 % 256 &&& 63 : Nat) = k
    generalize (b1 % 256 / 16 : Nat) = n
    push_cast
    omega
  · simp only [cacheUpdate, hlo]
    generalize (t0 % 256 &&& 63 : Nat) = k
    generalize (b1 % 256 % 16 : Nat) = n
    push_cast
    omega

/-- Witness for C6 at the initial decoder state, tag byte 0xAA (dg = 10) and
payload byte 0x5C (drg = 5, dbg = 12). -/
theorem advance_luma_chunk_witness :
    ∃ s2, advance initDecState (170 :: 92 :: []) = some (s2, []) ∧
      (s2.prev.g : Int) = ((initDecState.prev.g : Int) + ((170 % 256 &&& 63 : Nat) - 32)) % 256 ∧
      (s2.prev.r : Int) = ((initDecState.prev.r : Int) + ((170 % 256 &&& 63 : Nat) - 32) - 8
          + (92 % 256 / 16 : Nat)) % 256 ∧
      (s2.prev.b : Int) = ((initDecState.prev.b : Int) + ((170 % 256 &&& 63 : Nat) - 32) - 8
          + (92 % 256 % 16 : Nat)) % 256 ∧
      s2.prev.a = initDecState.prev.a :=
  advance_luma_chunk initDecState 170 92 [] rfl (by decide)

/-- Claim C9.  Decoder state invariant: for every state whose cache has its
64 slots, a successful `advance` that consumes a tag byte (`run = 0`) leaves
the cache slot `hash(prev) mod 64` equal to `prev`; a call made while
`run > 0` changes neither the cache nor `prev`, so it preserves the
property. -/
theorem advance_cache_invariant (s s2 : DecState) (input rest2 : List Nat)
    (hlen : s.index.length = 64)
    (h : advance s input = some (s2, rest2)) :
    (s.run = 0 → s2.index.getD (hash s2.prev % 64) zeroPx = s2.prev) ∧
    (0 < s.run → s2.index = s.index ∧ s2.prev = s.prev) := by
  by_cases hr : 0 < s.run
  · simp only [advance, if_pos hr, Option.some.injEq, Prod.mk.injEq] at h
    refine ⟨fun h0 => absurd h0 (by omega), fun _ => ?_⟩
    rw [← h.1]
    exact ⟨rfl, rfl⟩
  · refine ⟨fun _ => ?_, fun hlt => absurd hlt hr⟩
    rcases input with _ | ⟨t0, rest⟩
    · simp only [advance, if_neg hr] at h
      exact Option.noConfusion h
    · simp only [advance, if_neg hr] at h
      unfold advanceTag at h
      repeat' split at h
      all_goals
        first
          | exact Option.noConfusion h
          | (simp only [Option.some.injEq, Prod.mk.injEq] at h
             rw [← h.1]
             exact cacheUpdate_getD _ hlen)

/-- Witness for C9: an RGBA literal chunk (1,2,3,4) from the initial decoder
state lands in cache slot 14 = hash (1,2,3,4) mod 64. -/
theorem advance_cache_invariant_witness :
    (initDecState.run = 0 →
      (DecState.mk 0 ((List.replicate 64 zeroPx).set 14 ⟨1, 2, 3, 4⟩) ⟨1, 2, 3, 4⟩).index.getD
          (hash (DecState.mk 0 ((List.replicate 64 zeroPx).set 14 ⟨1, 2, 3, 4⟩)
            ⟨1, 2, 3, 4⟩).prev % 64) zeroPx
        = (DecState.mk 0 ((List.replicate 64 zeroPx).set 14 ⟨1, 2, 3, 4⟩) ⟨1, 2, 3, 4⟩).prev) ∧
    (0 < initDecState.run →
      (DecState.mk 0 ((List.replicate 64 zeroPx).set 14 ⟨1, 2, 3, 4⟩) ⟨1, 2, 3, 4⟩).index
          = initDecState.index ∧
      (DecState.mk 0 ((List.replicate 64 zeroPx).set 14 ⟨1, 2, 3, 4⟩) ⟨1, 2, 3, 4⟩).prev
          = initDecState.prev) :=
  advance_cache_invariant initDecState _ [255, 1, 2, 3, 4] [] (by decide) (by decide)

end Qoi
